import Mathlib

/-!
Shallow embedding of the pg-mock in-memory SQL engine
(`src/executor_utils.js`, `src/session.js` first revision, and the
connection controller `PgMock` in `src/unnamed/part_000`).

JavaScript machine values are modelled explicitly: scalars carry the JS
primitives this engine stores (string / number / boolean / null /
undefined); loose equality, relational comparison and string coercion
follow the ECMAScript algorithms restricted to those scalars (numbers in
this engine are integers).  Fallible code returns `Except`; a thrown
`TypeError` from dereferencing `null`/`undefined` is the `nullAccess`
error.  Mutable state (table store, statement history, the controller's
two sessions) is passed explicitly.
-/

/-- JS scalar values stored in rows and parameter lists. -/
inductive Scalar
  | str (s : String)
  | num (n : Int)
  | bool (b : Bool)
  | null
  | undef
deriving DecidableEq, Repr

/-- JS truthiness of a scalar. -/
def scalarTruthy : Scalar → Bool
  | .str s => s ≠ ""
  | .num n => n ≠ 0
  | .bool b => b
  | .null => false
  | .undef => false

/-- Numeric value of a digit list (decimal). -/
def digitsVal (cs : List Char) : Nat :=
  cs.foldl (fun a c => a * 10 + (c.toNat - '0'.toNat)) 0

/-- The whitespace trim JS `Number(string)` performs, over the
character list. -/
def trimChars (cs : List Char) : List Char :=
  ((cs.dropWhile Char.isWhitespace).reverse.dropWhile Char.isWhitespace).reverse

/-- JS `Number(string)` restricted to integer literals: trimmed empty
string is 0, an optional sign followed by digits parses, everything else
is NaN (`none`). -/
def jsStrToNum (s : String) : Option Int :=
  let t := trimChars s.toList
  if t.isEmpty then some 0
  else
    match t with
    | '-' :: rest => if rest ≠ [] ∧ rest.all Char.isDigit then some (-(digitsVal rest : Int)) else none
    | '+' :: rest => if rest ≠ [] ∧ rest.all Char.isDigit then some ((digitsVal rest : Int)) else none
    | l => if l.all Char.isDigit then some ((digitsVal l : Int)) else none

/-- JS `ToNumber` on a scalar; `none` is NaN. -/
def toNumberOpt : Scalar → Option Int
  | .num n => some n
  | .bool b => some (if b then 1 else 0)
  | .null => some 0
  | .undef => none
  | .str s => jsStrToNum s

/-- JS `String(value)` on a scalar. -/
def jsToString : Scalar → String
  | .str s => s
  | .num n => toString n
  | .bool b => if b then "true" else "false"
  | .null => "null"
  | .undef => "undefined"

/-- JS loose equality `==` on the scalars of this engine. -/
def jsEqLoose : Scalar → Scalar → Bool
  | .null, .null => true
  | .undef, .undef => true
  | .null, .undef => true
  | .undef, .null => true
  | .null, _ => false
  | _, .null => false
  | .undef, _ => false
  | _, .undef => false
  | .str a, .str b => a == b
  | a, b =>
    match toNumberOpt a, toNumberOpt b with
    | some x, some y => x == y
    | _, _ => false

/-- JS `<` on scalars: string/string compares lexicographically, any
other pair compares as numbers, and a NaN operand yields `false`. -/
def jsLt : Scalar → Scalar → Bool
  | .str a, .str b => a < b
  | a, b =>
    match toNumberOpt a, toNumberOpt b with
    | some x, some y => x < y
    | _, _ => false

/-- JS `<=` on scalars (same shape as `jsLt`). -/
def jsLe : Scalar → Scalar → Bool
  | .str a, .str b => a ≤ b
  | a, b =>
    match toNumberOpt a, toNumberOpt b with
    | some x, some y => x ≤ y
    | _, _ => false

/-- Whether list `pre` literally starts list `l`. -/
def leadMatch : List Char → List Char → Bool
  | [], _ => true
  | _ :: _, [] => false
  | a :: as2, b :: bs2 => a == b && leadMatch as2 bs2

/-- JS `String.prototype.includes`: `hay` contains `sub`. -/
def strIncludes (hay sub : String) : Bool :=
  (List.range (hay.toList.length + 1)).any fun i => leadMatch sub.toList (hay.toList.drop i)

/-- Row: one record, a JS object mapping field name to scalar (own keys,
insertion-ordered, unique by construction). -/
abbrev Row : Type := List (String × Scalar)

/-- Read `row[key]`; a missing key is `undefined`. -/
def rowGet (r : Row) (k : String) : Scalar :=
  match r.find? (fun p => p.1 == k) with
  | none => .undef
  | some p => p.2

/-- Write `row[key] = v` (JS objects keep the original key position on
overwrite, append new keys at the end). -/
def rowSet (r : Row) (k : String) (v : Scalar) : Row :=
  if r.any (fun p => p.1 == k) then
    r.map (fun p => if p.1 == k then (k, v) else p)
  else r ++ [(k, v)]

/-- Errors thrown by a `Session` (the query executor) or by expression
evaluation.  `nullAccess` stands for a JS `TypeError` from dereferencing
`null`/`undefined`. -/
inductive SessErr
  | nullAccess
  | unsupportedCommand (kind : String)
  | unsupportedColumn
  | unsupportedColumnType
  | unsupportedWhereType
  | unsupportedOperator
  | unsupportedFrom
  | unknownJoinOn
  | invalidFrom
  | invalidJoinMapping
  | unknownJoin
  | unknownReturningType
  | unsupportedReturning
  | unknownDropKeyword
  | parseFailure
deriving DecidableEq, Repr

/-- AST expression nodes this engine consumes (produced by the external
`node-sql-parser`): column references, `$n` parameter placeholders
(`var` nodes carrying the digits after `$` as `name`), literals,
expression lists (BETWEEN bounds), and binary operator trees. -/
inductive Expr
  | column_ref (table : Option String) (column : String)
  | var (name : String)
  | value (v : Scalar)
  | expr_list (items : List Expr)
  | binary (operator : String) (left : Expr) (right : Expr)

/-- Result of `get_value`: usually a scalar; an `expr_list` node's
`value` field is its list of item expressions. -/
inductive GVal
  | v (s : Scalar)
  | listE (items : List Expr)

/-- `args[index]` with JS semantics: a negative or out-of-range index
reads `undefined`. -/
def jsIndex (args : List Scalar) (i : Int) : Scalar :=
  if i < 0 then .undef
  else match args.get? i.toNat with
    | none => .undef
    | some a => a

/-- `resolve_sql_param` (`executor_utils.js:75`): the index is
`(+exp.name - 1) || 0`, i.e. `n - 1` unless that is `0` or `NaN`, both of
which collapse to `0`. -/
def resolve_sql_param (name : String) (args : List Scalar) : Scalar :=
  let index : Int :=
    match jsStrToNum name with
    | none => 0
    | some v => if v - 1 = 0 then 0 else v - 1
  jsIndex args index

/-- `get_value` (`executor_utils.js:53`): `item` is the data row or JS
`null`; a `column_ref` with a `null` item throws a `TypeError`. -/
def get_value (item : Option Row) (exp : Option Expr) (args : List Scalar) :
    Except SessErr GVal :=
  match exp with
  | none => .ok (.v .undef)
  | some (.column_ref _ c) =>
    match item with
    | some r => .ok (.v (rowGet r c))
    | none => .error .nullAccess
  | some (.var name) => .ok (.v (resolve_sql_param name args))
  | some (.value s) => .ok (.v s)
  | some (.expr_list items) => .ok (.listE items)
  | some (.binary _ _ _) => .ok (.v .undef)

/-- A field value inside a dynamically shaped JS object: either a plain
scalar (fields of a data row) or an embedded row object (sub-rows of a
join composite keyed by table name). -/
inductive JVal
  | prim (s : Scalar)
  | obj (r : Row)
deriving DecidableEq, Repr

/-- A dynamically shaped JS object: a plain row has `prim` fields, a join
composite maps table names to `obj` sub-rows. -/
abbrev JObj : Type := List (String × JVal)

/-- View a plain row as a dynamically shaped object. -/
def rowToJObj (r : Row) : JObj := r.map fun p => (p.1, JVal.prim p.2)

/-- JS truthiness of a field value: objects are always truthy. -/
def jvalTruthy : JVal → Bool
  | .obj _ => true
  | .prim s => scalarTruthy s

/-- `_.get(x, key)` where a `null`/`undefined` key reads the property
literally named `"null"` (lodash stringifies the path element). -/
def jGet (x : JObj) (key : Option String) : Option JVal :=
  match x.find? (fun p => p.1 == (match key with | some s => s | none => "null")) with
  | some p => some p.2
  | none => none

/-- `source_item[key]` on a field value: a sub-row looks the key up, a
primitive yields `undefined`. -/
def jvalIndex (jv : JVal) (key : String) : Scalar :=
  match jv with
  | .prim _ => .undef
  | .obj r => rowGet r key

/-- `Object.assign(copy, source)`: merge a sub-row's fields into `copy`;
a string primitive source contributes its character positions, other
primitives contribute nothing. -/
def objAssignRow (copy : Row) (jv : JVal) : Row :=
  match jv with
  | .obj r => r.foldl (fun c p => rowSet c p.1 p.2) copy
  | .prim (.str s) =>
    (s.toList.enum).foldl (fun c p => rowSet c (toString p.1) (.str (String.singleton p.2))) copy
  | .prim _ => copy

/-- JS `a || b` on optional strings (`""`, `null` and `undefined` are
falsy). -/
def jsOrStr (a b : Option String) : Option String :=
  match a with
  | some s => if s = "" then b else some s
  | none => b

/-- Truthiness of an optional string field. -/
def truthyOptStr : Option String → Bool
  | some s => s ≠ ""
  | none => false

/-- The scalar a `get_value` result contributes to a comparison (an
expression-list value never reaches a comparison in practice). -/
def gvToScalar : GVal → Scalar
  | .listE _ => .undef
  | .v s => s

/-- `+x` on a `get_value` result (`none` is NaN). -/
def gvToNumberOpt (g : GVal) : Option Int := toNumberOpt (gvToScalar g)

/-- `Array.prototype.find` with a predicate that may throw. -/
def findE {α : Type} (p : α → Except SessErr Bool) : List α → Except SessErr (Option α)
  | [] => .ok none
  | x :: xs => do
    if (← p x) then return some x else findE p xs

/-- `Array.prototype.filter` with a predicate that may throw. -/
def filterE {α : Type} (p : α → Except SessErr Bool) : List α → Except SessErr (List α)
  | [] => .ok []
  | x :: xs => do
    let keep ← p x
    let rest ← filterE p xs
    return if keep then x :: rest else rest

/-- `Session.#check_binary_exp` (`session.js:255`): comparison, LIKE as a
case-insensitive symmetric substring test, BETWEEN over two bounds taken
from the right operand's expression list. -/
def check_binary_exp (left right : GVal) (operator : String) (args : List Scalar) :
    Except SessErr Bool :=
  match operator with
  | "=" => .ok (jsEqLoose (gvToScalar left) (gvToScalar right))
  | "<>" => .ok (!jsEqLoose (gvToScalar left) (gvToScalar right))
  | ">" => .ok (jsLt (gvToScalar right) (gvToScalar left))
  | "<" => .ok (jsLt (gvToScalar left) (gvToScalar right))
  | "<=" => .ok (jsLe (gvToScalar left) (gvToScalar right))
  | "=<" => .ok (jsLe (gvToScalar left) (gvToScalar right))
  | ">=" => .ok (jsLe (gvToScalar right) (gvToScalar left))
  | "=>" => .ok (jsLe (gvToScalar right) (gvToScalar left))
  | "LIKE" | "NOT LIKE" =>
    let lstr := (jsToString (gvToScalar left)).toLower
    let rstr := (jsToString (gvToScalar right)).toLower
    let likeResult := strIncludes lstr rstr || strIncludes rstr lstr
    .ok (if strIncludes operator "NOT" then !likeResult else likeResult)
  | "BETWEEN" | "NOT BETWEEN" => do
    let bounds : List Expr := match right with | .listE items => items | .v _ => []
    let fromV ← get_value none (bounds.get? 0) args
    let toV ← get_value none (bounds.get? 1) args
    let betweenResult :=
      jsLe (gvToScalar fromV) (gvToScalar left) && jsLe (gvToScalar left) (gvToScalar toV)
    return if strIncludes operator "NOT" then !betweenResult else betweenResult
  | _ => .error .unsupportedOperator

/-- `Session.#check_where` (`session.js:236`): AND/OR recurse over
sub-predicates (`every`/`some`, so the right side is only evaluated when
the left side has not decided the result); any other binary operator
evaluates both sides and compares; non-binary nodes are unsupported. -/
def check_where (item : Row) (exp : Expr) (args : List Scalar) : Except SessErr Bool :=
  match exp with
  | .binary op l r =>
    if op = "AND" then do
      let a ← check_where item l args
      if a then check_where item r args else return false
    else if op = "OR" then do
      let a ← check_where item l args
      if a then return true else check_where item r args
    else do
      let left ← get_value (some item) (some l) args
      let right ← get_value (some item) (some r) args
      check_binary_exp left right op args
  | _ => .error .unsupportedWhereType

/-- One projected column specification (`Column` node of the parser). -/
structure Column where
  expr : Option Expr
  asName : Option String

/-- Project one source object through the requested column list
(the body of the `arr.map` in `Session.#map_by_columns`). -/
def projectOne (columns : List Column) (default_table_name : Option String) (x : JObj) :
    Except SessErr Row :=
  columns.foldlM
    (fun copy column =>
      match column.expr with
      | none => .error .unsupportedColumn
      | some e =>
        match e with
        | .column_ref tbl colName =>
          let table_name := jsOrStr tbl default_table_name
          match jGet x table_name with
          | some source_item =>
            if jvalTruthy source_item then
              if colName = "*" then .ok (objAssignRow copy source_item)
              else
                .ok (rowSet copy
                  (match column.asName with
                   | some a => if a = "" then colName else a
                   | none => colName)
                  (jvalIndex source_item colName))
            else .ok copy
          | none => .ok copy
        | _ => .error .unsupportedColumnType)
    ([] : Row)

/-- `Session.#map_by_columns` (`session.js:193`) for the array call sites
(both callers pass arrays, so only the empty-array early return of the
guard block is reachable). -/
def map_by_columns (arr : List JObj) (columns : List Column) (default_table_name : Option String) :
    Except SessErr (List Row) :=
  if arr.isEmpty then .ok []
  else arr.mapM (projectOne columns default_table_name)

/-- The table store: `Map<string, Row[]>`, insertion-ordered. -/
abbrev Store : Type := List (String × List Row)

/-- `map.get(name)`. -/
def storeGet? (store : Store) (t : String) : Option (List Row) :=
  match store.find? (fun p => p.1 == t) with
  | some p => some p.2
  | none => none

/-- `map.has(name)`. -/
def storeHas (store : Store) (t : String) : Bool :=
  store.any (fun p => p.1 == t)

/-- `map.set(name, rows)` (existing keys keep their position). -/
def storeSet (store : Store) (t : String) (rows : List Row) : Store :=
  if store.any (fun p => p.1 == t) then
    store.map (fun p => if p.1 == t then (t, rows) else p)
  else store ++ [(t, rows)]

/-- `map.delete(name)`. -/
def storeDel (store : Store) (t : String) : Store :=
  store.filter (fun p => p.1 != t)

/-- `get_table_from_sql` (`executor_utils.js:9`) once the table name is
known: returns the table's row array (empty when absent) and the store,
with the name auto-created on first reference. -/
def get_table_from_sql (store : Store) (t : String) : List Row × Store :=
  let array := (storeGet? store t).getD []
  (array, if storeHas store t then store else storeSet store t array)

/-- One FROM-chain entry (a `From` node: table name, optional join kind
string such as `"INNER JOIN"`, optional ON expression). -/
structure FromItem where
  table : Option String
  join : Option String
  onClause : Option Expr

/-- The `table` field of an ON operand (`undefined` unless it is a column
reference). -/
def exprTable : Expr → Option String
  | .column_ref t _ => t
  | _ => none

/-- The `column` field of an ON operand (`undefined` unless it is a
column reference). -/
def exprColumn : Expr → Option String
  | .column_ref _ c => some c
  | _ => none

/-- Column-reference `table` fields reachable from a node through chains
of binary expressions (what the flattening loop in
`Session.#check_from_and_throw` collects into its `tables` set). -/
def binTables : Expr → List (Option String)
  | .column_ref t _ => [t]
  | .binary _ l r => binTables l ++ binTables r
  | _ => []

/-- Whether a node owns a `value` property (literal and expression-list
nodes do; `var`, `column_ref` and `binary_expr` nodes do not). -/
def hasValueProp : Expr → Bool
  | .value _ => true
  | .expr_list _ => true
  | _ => false

/-- The per-node work of the ON-expression scan in
`Session.#check_from_and_throw` (`session.js:307`): column references
pass; a binary node's flattened subtree must mention the joined table
and its operands are scanned in turn; other nodes pass only if they
carry a `value` property. -/
def checkOnNode (fromTable : String) : Expr → Except SessErr Unit
  | .column_ref _ _ => .ok ()
  | .binary _ l r =>
    if (binTables l ++ binTables r).contains (some fromTable) then do
      checkOnNode fromTable l
      checkOnNode fromTable r
    else .error .unknownJoinOn
  | e => if hasValueProp e then .ok () else .error .unknownJoinOn

/-- The first loop of `Session.#check_from_and_throw` for one entry:
reject a falsy table name; for a join entry require a binary ON whose
operands scan cleanly. -/
def checkFromEntry (f : FromItem) : Except SessErr Unit :=
  if ¬ truthyOptStr f.table then .error .unsupportedFrom
  else if truthyOptStr f.join then
    match f.onClause with
    | none => .error .nullAccess
    | some o =>
      match o with
      | .binary _ l r => do
        checkOnNode (f.table.getD "") l
        checkOnNode (f.table.getD "") r
      | _ => .error .unknownJoinOn
  else .ok ()

/-- The join-chaining loop of `Session.#check_from_and_throw`
(`session.js:350`): every entry after the first must be a join whose ON
mentions the entry's own table whenever it mentions the previous one. -/
def checkJoinChain (prev : FromItem) : List FromItem → Except SessErr Unit
  | [] => .ok ()
  | f :: rest =>
    if ¬ truthyOptStr f.join then .error .invalidFrom
    else
      match f.onClause with
      | some (.binary _ l r) =>
        let tablesInJoin : List (Option String) := [exprTable l, exprTable r]
        if ¬ tablesInJoin.contains f.table ∧ tablesInJoin.contains prev.table then
          .error .invalidJoinMapping
        else checkJoinChain f rest
      | _ => .error .nullAccess

/-- `Session.#check_from_and_throw` (`session.js:298`). -/
def check_from_and_throw (froms : List FromItem) : Except SessErr Unit := do
  froms.forM checkFromEntry
  match froms with
  | [] => .ok ()
  | [_] => .ok ()
  | f0 :: rest =>
    if truthyOptStr f0.join then .error .invalidFrom
    else checkJoinChain f0 rest

/-- lodash `_.isEqual` between two field values of a composite row
(primitive scalars compare strictly; sub-rows compare key-set- and
value-wise, order-insensitively). -/
def jvalEquiv (a b : JVal) : Bool :=
  match a, b with
  | .prim x, .prim y => x == y
  | .obj x, .obj y =>
    (x.all fun p => match y.find? (fun q => q.1 == p.1) with
      | some q => p.2 == q.2
      | none => false) &&
    (y.all fun p => match x.find? (fun q => q.1 == p.1) with
      | some q => p.2 == q.2
      | none => false)
  | _, _ => false

/-- lodash `_.isEqual` between two composite objects. -/
def jobjEquiv (a b : JObj) : Bool :=
  (a.all fun p => match b.find? (fun q => q.1 == p.1) with
    | some q => jvalEquiv p.2 q.2
    | none => false) &&
  (b.all fun p => match a.find? (fun q => q.1 == p.1) with
    | some q => jvalEquiv p.2 q.2
    | none => false)

/-- lodash `_.pick(x, keys)`: the sub-object of `x` on the listed keys,
in key-list order. -/
def jpick (x : JObj) (keys : List String) : JObj :=
  keys.foldl
    (fun acc k =>
      match x.find? (fun p => p.1 == k) with
      | some p => acc ++ [p]
      | none => acc)
    ([] : JObj)

/-- `Object.assign(existing, mv)` on composite objects. -/
def jobjAssign (existing : JObj) (mv : JObj) : JObj :=
  mv.foldl
    (fun e p =>
      if e.any (fun q => q.1 == p.1) then
        e.map (fun q => if q.1 == p.1 then p else q)
      else e ++ [p])
    existing

/-- Replace the first element satisfying `p` by `f` of it; `none` when no
element matches. -/
def replaceFirst {α : Type} (p : α → Bool) (f : α → α) : List α → Option (List α)
  | [] => none
  | x :: xs => if p x then some (f x :: xs) else (replaceFirst p f xs).map (x :: ·)

/-- The merge loop at the end of `Session.#resolve_from`
(`session.js:438`): each pairing either augments the first existing
composite whose projection onto the pairing's keys is `_.isEqual` to it,
or is appended. -/
def compress (acc : List JObj) : List JObj → List JObj
  | [] => acc
  | mv :: rest =>
    let keys := mv.map (fun p => p.1)
    match replaceFirst (fun x => jobjEquiv (jpick x keys) mv) (fun x => jobjAssign x mv) acc with
    | some acc2 => compress acc2 rest
    | none => compress (acc ++ [mv]) rest

/-- One iteration of the join loop in `Session.#resolve_from`
(`session.js:379`): pair each left row with the first matching right row,
then each unmatched right row with the first matching left row; compute
the join-kind filter (whose value the original assigns to `join_result`
and then never uses — only its unknown-join error is observable); tag the
surviving sides with their table names. -/
def joinOne (store : Store) (args : List Scalar) (f : FromItem) : Except SessErr (List JObj) := do
  match f.onClause with
  | some (.binary operator lexp rexp) =>
    let leftTable := exprTable lexp
    let rightTable := exprTable rexp
    let leftCol := (exprColumn lexp).getD "undefined"
    let rightCol := (exprColumn rexp).getD "undefined"
    let leftCollection ←
      match leftTable.bind (storeGet? store) with
      | some c => Except.ok c
      | none => Except.error SessErr.nullAccess
    let rightCollection ←
      match rightTable.bind (storeGet? store) with
      | some c => Except.ok c
      | none => Except.error SessErr.nullAccess
    let firstPass ← leftCollection.mapM fun leftEl => do
      let mappedRight ← findE (fun x =>
        check_binary_exp (.v (rowGet leftEl leftCol)) (.v (rowGet x rightCol)) operator args)
        rightCollection
      return ((some leftEl : Option Row), mappedRight)
    let merged ← rightCollection.foldlM
      (fun acc rightEl => do
        if acc.any (fun p => p.2 == some rightEl) then
          return acc
        else
          let mappedLeft ← findE (fun x =>
            check_binary_exp (.v (rowGet x leftCol)) (.v (rowGet rightEl rightCol)) operator args)
            leftCollection
          return acc ++ [(mappedLeft, (some rightEl : Option Row))])
      firstPass
    let _join_result ←
      match f.join.getD "" with
      | "INNER JOIN" => Except.ok (merged.filter fun p => p.1.isSome && p.2.isSome)
      | "LEFT JOIN" => Except.ok (merged.filter fun p => p.1.isSome)
      | "RIGHT JOIN" => Except.ok (merged.filter fun p => p.2.isSome)
      | "CROSS JOIN" => Except.ok merged
      | "FULL JOIN" => Except.ok merged
      | _ => Except.error SessErr.unknownJoin
    return merged.map fun p =>
      (match p.1 with
       | some l => [((leftTable.getD "null"), JVal.obj l)]
       | none => ([] : JObj)) ++
      (match p.2 with
       | some r => [((rightTable.getD "null"), JVal.obj r)]
       | none => ([] : JObj))
  | _ => .error .nullAccess

/-- `Session.#resolve_from` (`session.js:368`): validate the chain; a
single table maps each of its rows (absent table: none) into a composite
keyed by the table name; a longer chain runs the join loop per entry and
merges the per-entry pairings. -/
def resolve_from (store : Store) (arr_from : List FromItem) (args : List Scalar) :
    Except SessErr (List JObj) := do
  check_from_and_throw arr_from
  match arr_from with
  | [f] =>
    return (match f.table with
      | some t =>
        match storeGet? store t with
        | some rows => rows.map fun r => [(t, JVal.obj r)]
        | none => []
      | none => [])
  | _ => do
    let raw_results ← (arr_from.drop 1).mapM (joinOne store args)
    return compress [] raw_results.flatten

/-- lodash `compareAscending` restricted to this engine's scalars (no
NaN and no symbols, so every value is reflexive). -/
def compareAsc (a b : Scalar) : Int :=
  if a = b then 0
  else if (b ≠ .null ∧ jsLt b a) ∨ (a = .null ∧ b ≠ .undef) ∨ a = .undef then 1
  else if (a ≠ .null ∧ jsLt a b) ∨ (b = .null ∧ a ≠ .undef) ∨ b = .undef then -1
  else 0

/-- lodash `compareMultiple` without the index tie-break: first deciding
criterion wins, negated for a `"desc"` order, missing orders sort
ascending. -/
def compareMultiple : List Scalar → List Scalar → List String → Int
  | a :: as2, b :: bs2, ords =>
    let r := compareAsc a b
    if r = 0 then compareMultiple as2 bs2 ords.tail
    else if ords.head? == some "desc" then -r else r
  | _, _, _ => 0

/-- Insert `x` into a list sorted by `le`, before the first element it is
`le`-below. -/
def insertSorted {α : Type} (le : α → α → Bool) (x : α) : List α → List α
  | [] => [x]
  | y :: ys => if le x y then x :: y :: ys else y :: insertSorted le x ys

/-- Insertion sort by a boolean comparison. -/
def sortByLe {α : Type} (le : α → α → Bool) : List α → List α
  | [] => []
  | x :: xs => insertSorted le x (sortByLe le xs)

/-- lodash `_.orderBy(rows, keys, orders)`: decorate each row with its
criteria (property reads by stringified iteratee key), sort by
`compareMultiple` with the original index as tie-break (lodash's stable
sort), undecorate. -/
def lodashOrderBy (rows : List Row) (keys : List String) (ords : List String) : List Row :=
  let decorated := rows.enum.map fun p => (p.1, p.2, keys.map (rowGet p.2))
  let le := fun (a b : Nat × Row × List Scalar) =>
    let c := compareMultiple a.2.2 b.2.2 ords
    if c = 0 then decide (a.1 ≤ b.1) else decide (c < 0)
  (sortByLe le decorated).map fun p => p.2.1

/-- `Array.prototype.slice(start, end)` with the ECMAScript clamping of
relative indices. -/
def jsSlice {α : Type} (l : List α) (start stop : Int) : List α :=
  let len : Int := l.length
  let rs := if start < 0 then max (len + start) 0 else min start len
  let re := if stop < 0 then max (len + stop) 0 else min stop len
  (l.drop rs.toNat).take (re - rs).toNat

/-- One ORDER BY key: its expression and its `"ASC"`/`"DESC"` tag. -/
structure OrderBy where
  expr : Expr
  type : String

/-- The combined LIMIT/OFFSET node: `value[0]` is the limit expression,
`value[1]` the offset expression. -/
structure Limit where
  value : List Expr

/-- A parsed `select` statement (the fields `Session.#select` consumes). -/
structure SelectAst where
  fromClause : List FromItem
  columns : List Column
  whereClause : Option Expr
  orderby : Option (List OrderBy)
  limit : Option Limit

/-- `Session.#select` (`session.js:70`) up to but excluding the
pagination step: resolve FROM, project immediately, filter by WHERE over
the projected rows, then order (each ORDER BY key expression is
evaluated with a JS-`null` item, exactly as the source passes `null` to
`get_value`). -/
def preLimit (store : Store) (s : SelectAst) (args : List Scalar) :
    Except SessErr (List Row) := do
  let raw_from ← resolve_from store s.fromClause args
  let defaultTable ←
    match s.fromClause.head? with
    | some f => Except.ok f.table
    | none => Except.error SessErr.nullAccess
  let projected ← map_by_columns raw_from s.columns defaultTable
  let filtered ←
    match s.whereClause with
    | none => Except.ok projected
    | some w => filterE (fun x => check_where x w args) projected
  match s.orderby with
  | none => Except.ok filtered
  | some ob => do
    let columns ← ob.mapM fun x => get_value none (some x.expr) args
    let order := ob.map fun x => x.type.toLower
    return lodashOrderBy filtered (columns.map fun g => jsToString (gvToScalar g)) order

/-- The pagination step of `Session.#select` (`session.js:85`): the
limit is `+value[0] || length` (so `0` and NaN fall back to "all
remaining"), the offset `+value[1] || 0`, applied as
`slice(from, from + to)`. -/
def applyLimit (args : List Scalar) (limit : Option Limit) (l : List Row) :
    Except SessErr (List Row) :=
  match limit with
  | none => .ok l
  | some lm =>
    match get_value none (lm.value.get? 0) args with
    | .error e => .error e
    | .ok gto =>
      let toV : Int :=
        match gvToNumberOpt gto with
        | some k => if k = 0 then (l.length : Int) else k
        | none => (l.length : Int)
      match get_value none (lm.value.get? 1) args with
      | .error e => .error e
      | .ok gfrom =>
        let fromV : Int :=
          match gvToNumberOpt gfrom with
          | some k => if k = 0 then 0 else k
          | none => 0
        .ok (jsSlice l fromV (fromV + toV))

/-- The `{rows?, rowCount?}` result object of a query. -/
structure PgResult where
  rows : Option (List Row)
  rowCount : Option Nat
deriving DecidableEq, Repr

/-- `Session.#select` (`session.js:70`): the staged pipeline followed by
pagination; `rowCount` is the length of the returned rows. -/
def select_stmt (store : Store) (s : SelectAst) (args : List Scalar) :
    Except SessErr PgResult :=
  match preLimit store s args with
  | .error e => .error e
  | .ok arr =>
    match applyLimit args s.limit arr with
    | .error e => .error e
    | .ok paged => .ok { rows := some paged, rowCount := some paged.length }

/-- A `{table: name}` reference as it appears in `sql.table` /
`sql.name` arrays of the parser. -/
structure TableRef where
  table : String
deriving DecidableEq, Repr

/-- One `values` tuple of an insert (an `expr_list` node's `value`). -/
structure InsertValue where
  value : List Expr

/-- The RETURNING columns as the code discriminates them:
`Array.isArray(columns)` (a column list), the literal string `"*"`, or
any other shape. -/
inductive ReturningCols
  | cols (l : List Column)
  | star
  | other

/-- The RETURNING clause node. -/
structure Returning where
  type : String
  columns : ReturningCols

/-- A parsed `insert` statement (the fields `Session.#insert` consumes;
its `type` is `"insert"` by dispatch, so the `#replace` guard cannot
fire). -/
structure InsertAst where
  table : List TableRef
  columns : List String
  values : List InsertValue
  returning : Option Returning

/-- `find_table` (`executor_utils.js:20`) for the insert/delete arms:
`sql.table[0].table`, a `TypeError` when the array is empty. -/
def find_table_of_list (tabs : List TableRef) : Except SessErr String :=
  match tabs.head? with
  | some r => .ok r.table
  | none => .error .nullAccess

/-- The row-building loop of `Session.#insert` (`session.js:110`): zip
declared column names (a missing name becomes the literal key
`"undefined"`) with evaluated value expressions; drop rows that stayed
empty (only possible from an empty tuple, since every iteration creates
a key). -/
def insert_rows (i : InsertAst) (args : List Scalar) : Except SessErr (List Row) := do
  let built ← i.values.mapM fun insert_value => do
    let obj ← (insert_value.value.enum).foldlM
      (fun obj p => do
        let key := (i.columns.get? p.1).getD "undefined"
        let v ← get_value none (some p.2) args
        return rowSet obj key (gvToScalar v))
      ([] : Row)
    return obj
  return built.filter (fun obj => ¬ obj.isEmpty)

/-- `Session.#insert` (`session.js:104`): auto-create the target table,
build and append the rows, then shape the optional RETURNING result
(column list → `#map_by_columns` with no default table; `"*"` → inserted
rows verbatim; otherwise errors).  The returned store is the state after
the point the original threw, when it threw. -/
def insert_stmt (store : Store) (i : InsertAst) (args : List Scalar) :
    Store × Except SessErr PgResult :=
  match find_table_of_list i.table with
  | .error e => (store, .error e)
  | .ok t =>
    let (arr_source, store1) := get_table_from_sql store t
    match insert_rows i args with
    | .error e => (store1, .error e)
    | .ok to_insert =>
      let store2 := storeSet store1 t (arr_source ++ to_insert)
      match i.returning with
      | none => (store2, .ok { rows := none, rowCount := some to_insert.length })
      | some ret =>
        if ret.type = "returning" then
          match ret.columns with
          | .cols cs =>
            match map_by_columns (to_insert.map rowToJObj) cs none with
            | .ok rows => (store2, .ok { rows := some rows, rowCount := some to_insert.length })
            | .error e => (store2, .error e)
          | .star => (store2, .ok { rows := some to_insert, rowCount := some to_insert.length })
          | .other => (store2, .error .unsupportedReturning)
        else (store2, .error .unknownReturningType)

/-- A parsed `delete` statement. -/
structure DeleteAst where
  table : List TableRef
  whereClause : Option Expr

/-- `Session.#delete` (`session.js:152`): auto-create the target table,
select the rows matching WHERE (none without a WHERE), remove exactly
those, report the removed count with no `rows`. -/
def delete_stmt (store : Store) (d : DeleteAst) (args : List Scalar) :
    Store × Except SessErr PgResult :=
  match find_table_of_list d.table with
  | .error e => (store, .error e)
  | .ok t =>
    let (arr_source, store1) := get_table_from_sql store t
    let to_delete :=
      match d.whereClause with
      | none => Except.ok ([] : List Row)
      | some w => filterE (fun x => check_where x w args) arr_source
    match to_delete with
    | .error e => (store1, .error e)
    | .ok dels =>
      let remaining := arr_source.filter (fun x => ¬ dels.contains x)
      (storeSet store1 t remaining, .ok { rows := none, rowCount := some dels.length })

/-- A parsed `drop` statement. -/
structure DropAst where
  keyword : String
  name : List TableRef
deriving DecidableEq, Repr

/-- `Session.#drop` (`session.js:170`): the `table` keyword deletes each
named table (missing names are no-ops) and returns the empty result
object `{}`; other keywords error. -/
def drop_stmt (store : Store) (d : DropAst) : Store × Except SessErr PgResult :=
  if d.keyword = "table" then
    (d.name.foldl (fun st nm => storeDel st nm.table) store,
     .ok { rows := none, rowCount := none })
  else (store, .error .unknownDropKeyword)

/-- A parsed statement (the `parsed.type` dispatch targets of
`Session.query`, plus `other` for every unhandled statement kind). -/
inductive Ast
  | select (s : SelectAst)
  | insert (i : InsertAst)
  | delete (d : DeleteAst)
  | drop (d : DropAst)
  | other (kind : String)

/-- A statement's SQL text as the controller observes it: either exactly
one of the reserved keywords (exact, untrimmed string match) or any
other text together with what the external parser produces for it. -/
inductive SqlText
  | begin
  | commit
  | rollback
  | stmt (ast : Ast)

/-- The external `parser.astify` boundary: non-reserved text carries its
parse result; the bare reserved keywords are not valid standalone SQL for
the parser and fail (a session never receives them through the
controller). -/
def parseSql : SqlText → Except SessErr Ast
  | .stmt a => .ok a
  | _ => .error .parseFailure

/-- A query executor: its private table store plus its statement
history. -/
structure SessionSt where
  tables : Store
  history : List (SqlText × List Scalar)

/-- A freshly constructed `Session`. -/
def newSession : SessionSt := { tables := [], history := [] }

/-- `Session.query` (`session.js:31`): push `{sql, args}` onto the
history before anything else (success or not), parse, dispatch by
statement kind.  Returns the session state after the call together with
the result or thrown error. -/
def session_query (st : SessionSt) (sql : SqlText) (args : List Scalar) :
    SessionSt × Except SessErr PgResult :=
  let st1 : SessionSt := { st with history := st.history ++ [(sql, args)] }
  match parseSql sql with
  | .error e => (st1, .error e)
  | .ok ast =>
    match ast with
    | .select s => (st1, select_stmt st1.tables s args)
    | .insert i =>
      let (tb, r) := insert_stmt st1.tables i args
      ({ st1 with tables := tb }, r)
    | .delete d =>
      let (tb, r) := delete_stmt st1.tables d args
      ({ st1 with tables := tb }, r)
    | .drop d =>
      let (tb, r) := drop_stmt st1.tables d
      ({ st1 with tables := tb }, r)
    | .other kind => (st1, .error (.unsupportedCommand kind))

/-- Errors surfaced by the connection controller `PgMock`:
`connectionError` is the `'You should open connection'` failure of
`query`; the transaction errors mirror `#handle_transaction`; `nullMain`
is the `TypeError` of replaying onto a missing main session; `sess`
wraps an error propagated from a `Session`. -/
inductive CtrlErr
  | connectionError
  | txnAlreadyStarted
  | txnNotStarted
  | txnLogicError
  | nullMain
  | sess (e : SessErr)

/-- What `PgMock.query` resolves to: `true` for the reserved keywords,
otherwise a session's query result. -/
inductive QOut
  | tru
  | res (r : PgResult)

/-- The controller's state: the optional main session and the optional
active transaction session. -/
structure Ctrl where
  main : Option SessionSt
  txn : Option SessionSt

/-- Whether the text is exactly one of the reserved keywords
(`'begin commit rollback'.split(' ').includes(sql)`). -/
def reservedSql : SqlText → Bool
  | .stmt _ => false
  | _ => true

/-- The commit replay loop: run each history entry against the main
session, stopping at (and surfacing) the first error together with the
main state reached by then. -/
def replayAll (m : SessionSt) : List (SqlText × List Scalar) → SessionSt × Option SessErr
  | [] => (m, none)
  | (s, a) :: rest =>
    let (m2, r) := session_query m s a
    match r with
    | .ok _ => replayAll m2 rest
    | .error e => (m2, some e)

/-- `PgMock.#handle_transaction` (`src/unnamed/part_000`): begin creates
a fresh private session; commit replays the transaction's history onto
the main session in original order, awaiting each entry, keeping the
transaction alive (and the partial main effects) if a replay entry
throws; rollback discards the transaction untouched; any other statement
delegates to the transaction session. -/
def handle_transaction (c : Ctrl) (sql : SqlText) (args : List Scalar) :
    Ctrl × Except CtrlErr QOut :=
  match sql with
  | .begin =>
    match c.txn with
    | some _ => (c, .error .txnAlreadyStarted)
    | none => ({ c with txn := some newSession }, .ok .tru)
  | .commit =>
    match c.txn with
    | none => (c, .error .txnNotStarted)
    | some tx =>
      match c.main with
      | some m =>
        let (m2, e) := replayAll m tx.history
        match e with
        | none => ({ main := some m2, txn := none }, .ok .tru)
        | some err => ({ main := some m2, txn := some tx }, .error (.sess err))
      | none =>
        if tx.history.isEmpty then ({ main := none, txn := none }, .ok .tru)
        else (c, .error .nullMain)
  | .rollback =>
    match c.txn with
    | none => (c, .error .txnNotStarted)
    | some _ => ({ c with txn := none }, .ok .tru)
  | .stmt _ =>
    match c.txn with
    | none => (c, .error .txnLogicError)
    | some tx =>
      let (tx2, r) := session_query tx sql args
      ({ c with txn := some tx2 },
       match r with
       | .ok pr => .ok (.res pr)
       | .error e => .error (.sess e))

/-- `PgMock.query` (`src/unnamed/part_000:27`): transaction handling when
a transaction is active or the text is exactly a reserved keyword; else
delegate to the main session when connected; else the connection
error. -/
def pg_query (c : Ctrl) (sql : SqlText) (args : List Scalar) : Ctrl × Except CtrlErr QOut :=
  if c.txn.isSome || reservedSql sql then handle_transaction c sql args
  else
    match c.main with
    | some m =>
      let (m2, r) := session_query m sql args
      ({ c with main := some m2 },
       match r with
       | .ok pr => .ok (.res pr)
       | .error e => .error (.sess e))
    | none => (c, .error .connectionError)

/-- Issue a list of statements through the controller, failing the whole
run at the first error (the caller stops issuing statements). -/
def ctrlRun (c : Ctrl) : List (SqlText × List Scalar) → Option Ctrl
  | [] => some c
  | (s, a) :: rest =>
    match pg_query c s a with
    | (c2, .ok _) => ctrlRun c2 rest
    | (_, .error _) => none

/-- Issue a list of statements through the controller, continuing after
errors (each call's thrown error propagates to the caller but the
controller object survives). -/
def ctrlRunAll : Ctrl → List (SqlText × List Scalar) → Ctrl
  | c, [] => c
  | c, (s, a) :: rest => ctrlRunAll (pg_query c s a).1 rest

/-- Run a list of statements directly against one session, failing the
whole run at the first error. -/
def sessionRun (st : SessionSt) : List (SqlText × List Scalar) → Option SessionSt
  | [] => some st
  | (s, a) :: rest =>
    match session_query st s a with
    | (st2, .ok _) => sessionRun st2 rest
    | (_, .error _) => none

/-- Fixture: the two seeded `users` rows of the repository's examples. -/
def usersRows : List Row :=
  [[("id", Scalar.num 1), ("name", Scalar.str "John"), ("money", Scalar.num 0)],
   [("id", Scalar.num 2), ("name", Scalar.str "Richy"), ("money", Scalar.num 1123567)]]

/-- Fixture: a store holding only the seeded `users` table. -/
def fixtureStore : Store := [("users", usersRows)]

/-- Fixture: `select * from users`. -/
def selectStarUsers : SelectAst :=
  { fromClause := [⟨some "users", none, none⟩],
    columns := [⟨some (Expr.column_ref none "*"), none⟩],
    whereClause := none, orderby := none, limit := none }

/-- Fixture: `select * from users limit 0` (the parser's combined
limit/offset node carries just the one value). -/
def selectLimitZero : SelectAst :=
  { selectStarUsers with limit := some ⟨[Expr.value (Scalar.num 0)]⟩ }

/-- Fixture: `select * from users limit 1 offset 1`. -/
def selectLimitOneOffsetOne : SelectAst :=
  { selectStarUsers with limit := some ⟨[Expr.value (Scalar.num 1), Expr.value (Scalar.num 1)]⟩ }

/-- Fixture: `select * from users order by name asc`. -/
def selectOrderByName : SelectAst :=
  { selectStarUsers with orderby := some [⟨Expr.column_ref none "name", "ASC"⟩] }

/-- Fixture: a store where the single `history` row matches no `users`
row and the single `users` row matches no `history` row. -/
def joinStore : Store :=
  [("users", [[("id", Scalar.num 1)]]), ("history", [[("client_id", Scalar.num 2)]])]

/-- Fixture: `from history inner join users on
history.client_id = users.id`. -/
def joinFrom : List FromItem :=
  [⟨some "history", none, none⟩,
   ⟨some "users", some "INNER JOIN",
    some (Expr.binary "=" (Expr.column_ref (some "history") "client_id")
      (Expr.column_ref (some "users") "id"))⟩]

/-- Fixture: `insert into users2 (id) values (0) returning id`. -/
def insertReturningId : InsertAst :=
  { table := [⟨"users2"⟩], columns := ["id"],
    values := [⟨[Expr.value (Scalar.num 0)]⟩],
    returning := some ⟨"returning", ReturningCols.cols [⟨some (Expr.column_ref none "id"), none⟩]⟩ }

/-- Fixture: `insert into t (a) values (1)` without RETURNING. -/
def insertSimple : InsertAst :=
  { table := [⟨"t"⟩], columns := ["a"],
    values := [⟨[Expr.value (Scalar.num 1)]⟩], returning := none }

/-- Fixture: the one-statement transaction body used by the
begin/commit and begin/rollback witnesses. -/
def directStmts : List (SqlText × List Scalar) :=
  [(SqlText.stmt (Ast.insert insertSimple), [])]

/-- Fixture: `select * from t` over a table named `t`. -/
def selectFromT : SelectAst :=
  { fromClause := [⟨some "t", none, none⟩],
    columns := [⟨some (Expr.column_ref none "*"), none⟩],
    whereClause := none, orderby := none, limit := none }

/-- Fixture: a non-reserved statement of a kind the executor does not
handle. -/
def otherSql : SqlText := SqlText.stmt (Ast.other "unknown")

/-- Reading a cons cell whose head key matches. -/
theorem storeGet?_cons_hit {p : String × List Row} {l : Store} {t : String}
    (h : p.1 = t) : storeGet? (p :: l) t = some p.2 := by
  unfold storeGet?
  rw [List.find?_cons_of_pos _ (by simp [h])]

/-- Reading past a cons cell whose head key differs. -/
theorem storeGet?_cons_miss {p : String × List Row} {l : Store} {t : String}
    (h : p.1 ≠ t) : storeGet? (p :: l) t = storeGet? l t := by
  unfold storeGet?
  rw [List.find?_cons_of_neg _ (by simp [h])]

/-- A table the store does not `has` is not `get`-able either. -/
theorem storeGet?_eq_none_of_has_false {st : Store} {t : String}
    (h : storeHas st t = false) : storeGet? st t = none := by
  induction st with
  | nil => rfl
  | cons p rest ih =>
    simp only [storeHas, List.any_cons, Bool.or_eq_false_iff] at h
    rw [storeGet?_cons_miss (by simpa using h.1)]
    exact ih h.2

/-- Helper: replacing the value at a present key is found back. -/
theorem find?_replace_of_any (t : String) (v : List Row) :
    ∀ st : Store, st.any (fun p => p.1 == t) = true →
      (st.map (fun p => if p.1 == t then (t, v) else p)).find? (fun p => p.1 == t)
        = some (t, v) := by
  intro st
  induction st with
  | nil => intro h; cases h
  | cons p rest ih =>
    intro h
    by_cases hp : p.1 = t
    · simp only [List.map_cons]
      rw [if_pos (by simp [hp])]
      rw [List.find?_cons_of_pos _ (by simp)]
    · simp only [List.map_cons]
      rw [if_neg (by simp [hp])]
      rw [List.find?_cons_of_neg _ (by simp [hp])]
      simp only [List.any_cons, Bool.or_eq_true] at h
      rcases h with h | h
      · exact absurd (by simpa using h) hp
      · exact ih h

/-- Helper: a key absent from the prefix is found in the appended pair. -/
theorem find?_append_of_not_any (t : String) (v : List Row) :
    ∀ st : Store, st.any (fun p => p.1 == t) = false →
      (st ++ [(t, v)]).find? (fun p => p.1 == t) = some (t, v) := by
  intro st
  induction st with
  | nil => intro _; simp
  | cons p rest ih =>
    intro h
    simp only [List.any_cons, Bool.or_eq_false_iff] at h
    simp only [List.cons_append]
    rw [List.find?_cons_of_neg _ (by simp [h.1])]
    exact ih h.2

/-- Reading back the key just written by `storeSet`. -/
theorem storeGet?_storeSet_self (st : Store) (t : String) (v : List Row) :
    storeGet? (storeSet st t v) t = some v := by
  unfold storeSet
  split
  next hany =>
    unfold storeGet?
    rw [find?_replace_of_any t v st hany]
  next hany =>
    unfold storeGet?
    have hfalse : st.any (fun p => p.1 == t) = false := by
      cases hb : st.any (fun p => p.1 == t)
      · rfl
      · exact absurd hb hany
    rw [find?_append_of_not_any t v st hfalse]

/-- `storeDel` removes exactly the named key. -/
theorem storeGet?_storeDel (st : Store) (t u : String) :
    storeGet? (storeDel st u) t = if t = u then none else storeGet? st t := by
  induction st with
  | nil => simp [storeDel, storeGet?]
  | cons p rest ih =>
    by_cases hpu : p.1 = u
    · have h1 : storeDel (p :: rest) u = storeDel rest u := by
        simp [storeDel, List.filter_cons, hpu]
      rw [h1, ih]
      by_cases htu : t = u
      · simp [htu]
      · rw [if_neg htu, if_neg htu,
          storeGet?_cons_miss (fun he => htu (by rw [← he]; exact hpu))]
    · have h1 : storeDel (p :: rest) u = p :: storeDel rest u := by
        simp [storeDel, List.filter_cons, hpu]
      rw [h1]
      by_cases hpt : p.1 = t
      · have htu : ¬ t = u := fun he => hpu (by rw [hpt, he])
        rw [storeGet?_cons_hit hpt, if_neg htu, storeGet?_cons_hit hpt]
      · rw [storeGet?_cons_miss hpt, ih]
        by_cases htu : t = u
        · simp [htu]
        · rw [if_neg htu, if_neg htu, storeGet?_cons_miss hpt]

/-- An absent table stays absent across the drop fold. -/
theorem dropFold_absent (names : List TableRef) (t : String) :
    ∀ st : Store, storeGet? st t = none →
      storeGet? (names.foldl (fun s nm => storeDel s nm.table) st) t = none := by
  induction names with
  | nil => intro st h; simpa using h
  | cons nm rest ih =>
    intro st h
    simp only [List.foldl_cons]
    apply ih
    rw [storeGet?_storeDel]
    split <;> simp [h]

/-- A table named by the drop list is absent after the drop fold. -/
theorem dropFold_mem (names : List TableRef) (t : String) :
    ∀ st : Store, (⟨t⟩ : TableRef) ∈ names →
      storeGet? (names.foldl (fun s nm => storeDel s nm.table) st) t = none := by
  induction names with
  | nil => intro st h; cases h
  | cons nm rest ih =>
    intro st h
    rcases List.mem_cons.mp h with h | h
    · simp only [List.foldl_cons]
      apply dropFold_absent
      rw [← h, storeGet?_storeDel]
      simp
    · exact ih _ h

/-- `Session.query` appends one history entry, whatever else happens. -/
theorem session_query_history (st : SessionSt) (sql : SqlText) (args : List Scalar) :
    (session_query st sql args).1.history = st.history ++ [(sql, args)] := by
  cases sql with
  | stmt a => cases a <;> rfl
  | begin => rfl
  | commit => rfl
  | rollback => rfl

/-- A text is non-reserved exactly when it is an ordinary parsed
statement. -/
theorem reservedSql_eq_false_iff (sql : SqlText) :
    reservedSql sql = false ↔ ∃ a, sql = SqlText.stmt a := by
  cases sql <;> simp [reservedSql]

/-- A replay that hits no error is the same thing as a direct run. -/
theorem replayAll_none_sessionRun :
    ∀ (l : List (SqlText × List Scalar)) (m : SessionSt),
      (replayAll m l).2 = none → sessionRun m l = some (replayAll m l).1 := by
  intro l
  induction l with
  | nil => intro m _; rfl
  | cons p rest ih =>
    intro m h
    obtain ⟨s, a⟩ := p
    rcases hq : session_query m s a with ⟨m2, r⟩
    simp only [replayAll, hq] at h ⊢
    simp only [sessionRun, hq]
    cases r with
    | ok pr => exact ih m2 h
    | error e => simp at h

/-- With a transaction active, a successful run of non-reserved
statements followed by `commit` leaves no transaction, and the final
main session is exactly the direct run of the transaction's history
extended by those statements. -/
theorem ctrl_commit_aux :
    ∀ (S : List (SqlText × List Scalar)) (tx m : SessionSt) (c' : Ctrl),
      (∀ p ∈ S, reservedSql p.1 = false) →
      ctrlRun ⟨some m, some tx⟩ (S ++ [(SqlText.commit, [])]) = some c' →
      ∃ m2, sessionRun m (tx.history ++ S) = some m2 ∧ c' = ⟨some m2, none⟩ := by
  intro S
  induction S with
  | nil =>
    intro tx m c' _ hrun
    rcases hr : replayAll m tx.history with ⟨m2, e⟩
    cases e with
    | none =>
      simp only [List.nil_append, ctrlRun, pg_query, Option.isSome_some, Bool.true_or,
        if_true, handle_transaction, hr] at hrun
      refine ⟨m2, ?_, (Option.some.inj hrun).symm⟩
      rw [List.append_nil]
      have h2 : (replayAll m tx.history).2 = none := by rw [hr]
      have := replayAll_none_sessionRun tx.history m h2
      rw [hr] at this
      exact this
    | some err =>
      simp only [List.nil_append, ctrlRun, pg_query, Option.isSome_some, Bool.true_or,
        if_true, handle_transaction, hr] at hrun
      exact Option.noConfusion hrun
  | cons p rest ih =>
    intro tx m c' hres hrun
    obtain ⟨s, a⟩ := p
    have hs : reservedSql s = false := hres (s, a) (List.mem_cons_self _ _)
    obtain ⟨ast, rfl⟩ := (reservedSql_eq_false_iff s).mp hs
    rcases hq : session_query tx (SqlText.stmt ast) a with ⟨tx2, r⟩
    cases r with
    | ok pr =>
      simp only [List.cons_append, ctrlRun, pg_query, Option.isSome_some, Bool.true_or,
        if_true, handle_transaction, hq] at hrun
      obtain ⟨m2, hrun2, hc⟩ := ih tx2 m c' (fun q hqm => hres q (List.mem_cons_of_mem _ hqm)) hrun
      refine ⟨m2, ?_, hc⟩
      have hh : tx2.history = tx.history ++ [(SqlText.stmt ast, a)] := by
        have hsq := session_query_history tx (SqlText.stmt ast) a
        rw [hq] at hsq
        exact hsq
      rw [hh, List.append_assoc] at hrun2
      simpa using hrun2
    | error e =>
      simp only [List.cons_append, ctrlRun, pg_query, Option.isSome_some, Bool.true_or,
        if_true, handle_transaction, hq] at hrun
      exact Option.noConfusion hrun

/-- With a transaction active, non-reserved statements followed by
`rollback` leave the main session untouched and no transaction,
regardless of which statements succeed. -/
theorem ctrl_rollback_aux :
    ∀ (S : List (SqlText × List Scalar)) (tx m : SessionSt),
      (∀ p ∈ S, reservedSql p.1 = false) →
      ctrlRunAll ⟨some m, some tx⟩ (S ++ [(SqlText.rollback, [])]) = ⟨some m, none⟩ := by
  intro S
  induction S with
  | nil => intro tx m _; rfl
  | cons p rest ih =>
    intro tx m hres
    obtain ⟨s, a⟩ := p
    obtain ⟨ast, rfl⟩ :=
      (reservedSql_eq_false_iff s).mp (hres (s, a) (List.mem_cons_self _ _))
    rcases hq : session_query tx (SqlText.stmt ast) a with ⟨tx2, r⟩
    simp only [List.cons_append, ctrlRunAll, pg_query, Option.isSome_some, Bool.true_or,
      if_true, handle_transaction, hq]
    exact ih tx2 m (fun q hqm => hres q (List.mem_cons_of_mem _ hqm))

/-- The Nat core of the slice computation. -/
theorem take_min_sub_eq {α : Type} (L : List α) (a b : Nat) :
    (L.drop (min a L.length)).take (min (a + b) L.length - min a L.length)
      = (L.drop a).take b := by
  rcases le_or_lt a L.length with ha | ha
  · rw [min_eq_left ha]
    apply List.take_eq_take.mpr
    rw [List.length_drop]
    omega
  · rw [min_eq_right (le_of_lt ha), List.drop_length]
    rw [List.drop_eq_nil_of_le (le_of_lt ha)]
    simp

/-- `slice(m, m + n)` for nonnegative `m`, `n` is drop-then-take. -/
theorem jsSlice_of_nonneg {α : Type} (L : List α) (m n : Int) (hm : 0 ≤ m) (hn : 0 ≤ n) :
    jsSlice L m (m + n) = (L.drop m.toNat).take n.toNat := by
  simp only [jsSlice]
  rw [if_neg (not_lt.mpr hm), if_neg (not_lt.mpr (show (0 : Int) ≤ m + n by omega))]
  obtain ⟨a, rfl⟩ := Int.eq_ofNat_of_zero_le hm
  obtain ⟨b, rfl⟩ := Int.eq_ofNat_of_zero_le hn
  have h1 : (min (a : Int) (L.length : Int)).toNat = min a L.length := by omega
  have h2 : (min ((a : Int) + (b : Int)) (L.length : Int) - min (a : Int) (L.length : Int)).toNat
      = min (a + b) L.length - min a L.length := by omega
  rw [h1, h2, Int.toNat_natCast, Int.toNat_natCast]
  exact take_min_sub_eq L a b

/-- C1: for a connected controller with no active transaction, a
successful run of `query("begin")`, a sequence `S` of non-reserved
statements, then `query("commit")` dissolves the transaction and leaves
the main executor equal (table store included) to executing `S`
directly against it, in order with the same parameters, from the same
initial state; commit replays exactly the transaction executor's
history — which is `S` in original order — against the main
executor. -/
theorem commit_equals_direct_run :
    ∀ (m : SessionSt) (S : List (SqlText × List Scalar)) (c' : Ctrl),
      (∀ p ∈ S, reservedSql p.1 = false) →
      ctrlRun ⟨some m, none⟩ ((SqlText.begin, []) :: (S ++ [(SqlText.commit, [])])) = some c' →
      ∃ m2, sessionRun m S = some m2 ∧ c' = ⟨some m2, none⟩ := by
  intro m S c' hres hrun
  simp only [ctrlRun, pg_query, Option.isSome_none, reservedSql, Bool.false_or,
    if_true, handle_transaction] at hrun
  have h := ctrl_commit_aux S newSession m c' hres hrun
  simpa [newSession] using h

/-- Witness for `commit_equals_direct_run`: a one-insert transaction,
begun, executed and committed, ends with the main session holding the
inserted row and the insert in its history. -/
theorem commit_equals_direct_run_witness :
    ∃ m2, sessionRun newSession directStmts = some m2 ∧
      (Ctrl.mk (some (SessionSt.mk [("t", [[("a", Scalar.num 1)]])] directStmts)) none)
        = ⟨some m2, none⟩ :=
  commit_equals_direct_run newSession directStmts
    (Ctrl.mk (some (SessionSt.mk [("t", [[("a", Scalar.num 1)]])] directStmts)) none)
    (by decide) (by rfl)

/-- C8: for a connected controller with no active transaction,
`query("begin")`, any sequence of non-reserved statements, then
`query("rollback")` leaves the main executor exactly as it was before
the `begin` (the statements only ever touch the transaction executor's
private store), and no transaction remains. -/
theorem rollback_preserves_main :
    ∀ (m : SessionSt) (S : List (SqlText × List Scalar)),
      (∀ p ∈ S, reservedSql p.1 = false) →
      ctrlRunAll ⟨some m, none⟩ ((SqlText.begin, []) :: (S ++ [(SqlText.rollback, [])]))
        = ⟨some m, none⟩ := by
  intro m S hres
  simp only [ctrlRunAll, pg_query, Option.isSome_none, reservedSql, Bool.false_or,
    if_true, handle_transaction]
  exact ctrl_rollback_aux S newSession m hres

/-- Witness for `rollback_preserves_main`: begin, one insert, rollback
returns the controller to its initial state. -/
theorem rollback_preserves_main_witness :
    ctrlRunAll ⟨some newSession, none⟩
      ((SqlText.begin, []) :: (directStmts ++ [(SqlText.rollback, [])]))
      = ⟨some newSession, none⟩ :=
  rollback_preserves_main newSession directStmts (by decide)

/-- C9: `PgMock.query` fails with the connection error exactly when no
transaction is active, the text is not exactly one of the reserved
keywords, and no main session exists; and in the connected, untriggered
case the call is delegated verbatim to the main session. -/
theorem query_connection_error_iff :
    ∀ (c : Ctrl) (sql : SqlText) (args : List Scalar),
      ((pg_query c sql args).2 = Except.error CtrlErr.connectionError ↔
        c.txn = none ∧ reservedSql sql = false ∧ c.main = none) ∧
      (∀ m : SessionSt, c.txn = none → reservedSql sql = false → c.main = some m →
        pg_query c sql args =
          (⟨some (session_query m sql args).1, none⟩,
           match (session_query m sql args).2 with
           | .ok pr => .ok (.res pr)
           | .error e => .error (.sess e))) := by
  intro c sql args
  obtain ⟨mo, txo⟩ := c
  constructor
  · cases txo with
    | some tx =>
      simp only [pg_query, Option.isSome_some, Bool.true_or, if_true]
      constructor
      · intro h
        exfalso
        cases sql with
        | begin => simp [handle_transaction] at h
        | rollback => simp [handle_transaction] at h
        | commit =>
          cases mo with
          | some m =>
            rcases hr : replayAll m tx.history with ⟨m2, e⟩
            cases e <;> simp [handle_transaction, hr] at h
          | none =>
            by_cases hh : tx.history.isEmpty <;> simp [handle_transaction, hh] at h
        | stmt ast =>
          rcases hq : session_query tx (SqlText.stmt ast) args with ⟨tx2, r⟩
          cases r <;> simp [handle_transaction, hq] at h
      · rintro ⟨h, -, -⟩
        exact absurd h (by simp)
    | none =>
      cases sql with
      | begin => simp [pg_query, handle_transaction, reservedSql]
      | commit => simp [pg_query, handle_transaction, reservedSql]
      | rollback => simp [pg_query, handle_transaction, reservedSql]
      | stmt ast =>
        cases mo with
        | none => simp [pg_query, reservedSql]
        | some m =>
          rcases hq : session_query m (SqlText.stmt ast) args with ⟨m2, r⟩
          cases r <;> simp [pg_query, reservedSql, hq]
  · intro m hto hres hmo
    subst hto
    subst hmo
    obtain ⟨ast, rfl⟩ := (reservedSql_eq_false_iff sql).mp hres
    rfl

/-- Witness for `query_connection_error_iff`: while disconnected a
non-reserved statement hits the connection error, and while connected it
is delegated to the main session (here failing as an unsupported
command, not as a connection error). -/
theorem query_connection_error_iff_witness :
    (pg_query ⟨none, none⟩ otherSql []).2 = Except.error CtrlErr.connectionError ∧
    pg_query ⟨some newSession, none⟩ otherSql [] =
      (⟨some (session_query newSession otherSql []).1, none⟩,
       Except.error (CtrlErr.sess (SessErr.unsupportedCommand "unknown"))) :=
  ⟨(query_connection_error_iff ⟨none, none⟩ otherSql []).1.mpr ⟨rfl, rfl, rfl⟩,
   (query_connection_error_iff ⟨some newSession, none⟩ otherSql []).2 newSession rfl rfl rfl⟩

/-- C3 counterexample: `limit 0` over two available rows returns both
rows — `+value[0] || length` treats `0` as absent — where the claim's
`min(n, max(k - m, 0))` demands `0` rows. -/
theorem limit_zero_returns_all_rows_cex :
    select_stmt fixtureStore selectLimitZero [] =
      .ok { rows := some usersRows, rowCount := some 2 } ∧
    (2 : Nat) ≠ min 0 (max (2 - 0) 0) :=
  ⟨rfl, by decide⟩

/-- C3 (amended): over the filtered/ordered set `L` of `k` rows, a
pagination clause with limit `n` and offset `m ≥ 0` returns the rows
after the first `m`, capped at `n`, when `n ≥ 1` — exactly
`min(n, max(k - m, 0))` rows; when `n = 0` the limit falls back to "all
remaining" and every row after the first `m` is returned. -/
theorem pagination_amended :
    ∀ (store : Store) (s : SelectAst) (args : List Scalar) (L : List Row)
      (e1 e2 : Expr) (g1 g2 : GVal) (n m : Int),
      preLimit store s args = .ok L →
      s.limit = some ⟨[e1, e2]⟩ →
      get_value none (some e1) args = .ok g1 →
      gvToNumberOpt g1 = some n →
      get_value none (some e2) args = .ok g2 →
      gvToNumberOpt g2 = some m →
      0 ≤ m →
      ((1 ≤ n →
        select_stmt store s args =
          .ok { rows := some ((L.drop m.toNat).take n.toNat),
                rowCount := some (min n.toNat (L.length - m.toNat)) }) ∧
       (n = 0 →
        select_stmt store s args =
          .ok { rows := some (L.drop m.toNat),
                rowCount := some (L.length - m.toNat) })) := by
  intro store s args L e1 e2 g1 g2 n m hpre hlim hg1 hn1 hg2 hm2 hm0
  have hfrom : (if m = 0 then (0 : Int) else m) = m := by
    by_cases h : m = 0 <;> simp [h]
  constructor
  · intro hn
    have hne : ¬ n = 0 := by omega
    have happly : applyLimit args s.limit L = .ok ((L.drop m.toNat).take n.toNat) := by
      rw [hlim]
      simp only [applyLimit, List.get?_cons_zero, List.get?_cons_succ]
      rw [hg1, hg2]
      simp only [hn1, hm2]
      rw [if_neg hne]
      simp only [hfrom]
      rw [jsSlice_of_nonneg L m n hm0 (by omega)]
    simp only [select_stmt, hpre, happly]
    simp only [List.length_take, List.length_drop]
  · intro hn
    subst hn
    have happly : applyLimit args s.limit L = .ok (L.drop m.toNat) := by
      rw [hlim]
      simp only [applyLimit, List.get?_cons_zero, List.get?_cons_succ]
      rw [hg1, hg2]
      simp only [hn1, hm2, if_true]
      simp only [hfrom]
      rw [jsSlice_of_nonneg L m (L.length : Int) hm0 (by positivity)]
      rw [Int.toNat_natCast]
      rw [List.take_of_length_le (by rw [List.length_drop]; omega)]
    simp only [select_stmt, hpre, happly]
    simp only [List.length_drop]

/-- Witness for `pagination_amended`: `limit 1 offset 1` over the two
seeded users returns exactly the second row. -/
theorem pagination_amended_witness :
    select_stmt fixtureStore selectLimitOneOffsetOne [] =
      .ok { rows := some [[("id", Scalar.num 2), ("name", Scalar.str "Richy"),
              ("money", Scalar.num 1123567)]],
            rowCount := some 1 } :=
  (pagination_amended fixtureStore selectLimitOneOffsetOne [] usersRows
    (Expr.value (Scalar.num 1)) (Expr.value (Scalar.num 1))
    (GVal.v (Scalar.num 1)) (GVal.v (Scalar.num 1)) 1 1
    rfl rfl rfl rfl rfl rfl (by decide)).1 (by decide)

/-- C4 counterexample: `$0` with params `[7]` resolves to `undefined`
(JS index `-1`), not to the first parameter `7`. -/
theorem dollar_zero_param_cex :
    resolve_sql_param "0" [Scalar.num 7] = Scalar.undef ∧
    Scalar.undef ≠ Scalar.num 7 :=
  ⟨rfl, by decide⟩

/-- C4 (amended): `$n` resolves to `params[n-1]` when `n` parses to a
positive integer, falls back to `params[0]` only when `n` is
unparseable as a number (NaN), and resolves to `undefined` (the JS read
`args[-1]`) when `n` is zero. -/
theorem resolve_sql_param_amended :
    ∀ (args : List Scalar) (s : String) (v : Int),
      (jsStrToNum s = some v → 1 ≤ v → resolve_sql_param s args = jsIndex args (v - 1)) ∧
      (jsStrToNum s = some 0 → resolve_sql_param s args = Scalar.undef) ∧
      (jsStrToNum s = none → resolve_sql_param s args = jsIndex args 0) := by
  intro args s v
  refine ⟨?_, ?_, ?_⟩
  · intro hp hv
    unfold resolve_sql_param
    rw [hp]
    by_cases h1 : v - 1 = 0 <;> simp [h1]
  · intro hp
    unfold resolve_sql_param
    rw [hp]
    norm_num [jsIndex]
  · intro hp
    unfold resolve_sql_param
    rw [hp]

/-- Witness for `resolve_sql_param_amended`: `$2` of `[7, 9]` is `9`,
and an unparseable name falls back to the first parameter. -/
theorem resolve_sql_param_amended_witness :
    resolve_sql_param "2" [Scalar.num 7, Scalar.num 9] = jsIndex [Scalar.num 7, Scalar.num 9] (2 - 1) ∧
    resolve_sql_param "x" [Scalar.num 7, Scalar.num 9] = jsIndex [Scalar.num 7, Scalar.num 9] 0 :=
  ⟨(resolve_sql_param_amended [Scalar.num 7, Scalar.num 9] "2" 2).1 rfl (by decide),
   (resolve_sql_param_amended [Scalar.num 7, Scalar.num 9] "x" 2).2.2 rfl⟩

/-- C7 counterexample: a select whose FROM references the absent table
`t` succeeds with no rows but leaves the table store unchanged — `t` is
not auto-created by select (only insert and delete auto-create). -/
theorem select_no_autocreate_cex :
    (session_query newSession (SqlText.stmt (Ast.select selectFromT)) []).2 =
      .ok { rows := some [], rowCount := some 0 } ∧
    (session_query newSession (SqlText.stmt (Ast.select selectFromT)) []).1.tables = [] ∧
    storeGet? [] "t" = none :=
  ⟨rfl, rfl, rfl⟩

/-- C7 (amended): an insert targeting an absent table makes it present
holding exactly the rows the insert built; a select never touches the
table store (no auto-creation); `drop table` removes every named
table. -/
theorem table_lifecycle_amended :
    (∀ (store : Store) (i : InsertAst) (args : List Scalar) (t : String) (rows : List Row),
      i.table = [⟨t⟩] → storeHas store t = false → insert_rows i args = .ok rows →
      storeGet? (insert_stmt store i args).1 t = some rows) ∧
    (∀ (st : SessionSt) (s : SelectAst) (args : List Scalar),
      (session_query st (SqlText.stmt (Ast.select s)) args).1.tables = st.tables) ∧
    (∀ (store : Store) (d : DropAst) (t : String),
      d.keyword = "table" → (⟨t⟩ : TableRef) ∈ d.name →
      storeGet? (drop_stmt store d).1 t = none) := by
  refine ⟨?_, ?_, ?_⟩
  · intro store i args t rows hT hHas hRows
    unfold insert_stmt
    rw [hT]
    simp only [find_table_of_list, List.head?]
    unfold get_table_from_sql
    rw [storeGet?_eq_none_of_has_false hHas, hHas]
    simp only [Option.getD_none, Bool.false_eq_true, if_false]
    rw [hRows]
    have hgoal : ∀ st2 : Store, st2 = storeSet (storeSet store t []) t ([] ++ rows) →
        storeGet? st2 t = some rows := by
      intro st2 h2
      rw [h2, List.nil_append]
      exact storeGet?_storeSet_self _ _ _
    dsimp only
    cases hri : i.returning with
    | none => exact hgoal _ rfl
    | some ret =>
      dsimp only
      by_cases hty : ret.type = "returning"
      · rw [if_pos hty]
        cases hrc : ret.columns with
        | cols cs =>
          dsimp only
          cases hmap : map_by_columns (List.map rowToJObj rows) cs none with
          | ok r => exact hgoal _ rfl
          | error e => exact hgoal _ rfl
        | star => exact hgoal _ rfl
        | other => exact hgoal _ rfl
      · rw [if_neg hty]
        exact hgoal _ rfl
  · intro st s args
    rfl
  · intro store d t hk hmem
    unfold drop_stmt
    rw [if_pos hk]
    exact dropFold_mem d.name t store hmem

/-- Witness for `table_lifecycle_amended`: inserting into absent `t`
creates it with the built row; a select leaves the fresh session's
(empty) store alone; dropping `t` removes it. -/
theorem table_lifecycle_amended_witness :
    storeGet? (insert_stmt [] insertSimple []).1 "t" = some [[("a", Scalar.num 1)]] ∧
    (session_query newSession (SqlText.stmt (Ast.select selectFromT)) []).1.tables
      = newSession.tables ∧
    storeGet? (drop_stmt [("t", [])] ⟨"table", [⟨"t"⟩]⟩).1 "t" = none :=
  ⟨table_lifecycle_amended.1 [] insertSimple [] "t" [[("a", Scalar.num 1)]] rfl rfl rfl,
   table_lifecycle_amended.2.1 newSession selectFromT [],
   table_lifecycle_amended.2.2 [("t", [])] ⟨"table", [⟨"t"⟩]⟩ "t" rfl (by decide)⟩

/-- C10: a delete whose target table is absent succeeds with
`rowCount 0` and no `rows`, and auto-creates the table as an empty row
sequence (via `get_table_from_sql`, exactly like insert). -/
theorem delete_absent_table_autocreates :
    ∀ (store : Store) (d : DeleteAst) (args : List Scalar) (t : String),
      d.table = [⟨t⟩] → storeHas store t = false →
      (delete_stmt store d args).2 = .ok { rows := none, rowCount := some 0 } ∧
      storeGet? (delete_stmt store d args).1 t = some [] := by
  intro store d args t hT hHas
  have harr : delete_stmt store d args =
      (storeSet (storeSet store t []) t [], .ok { rows := none, rowCount := some 0 }) := by
    unfold delete_stmt
    rw [hT]
    simp only [find_table_of_list, List.head?]
    unfold get_table_from_sql
    rw [storeGet?_eq_none_of_has_false hHas, hHas]
    simp only [Option.getD_none, Bool.false_eq_true, if_false]
    rcases d.whereClause with _ | w <;> rfl
  rw [harr]
  exact ⟨rfl, storeGet?_storeSet_self _ _ _⟩

/-- Witness for `delete_absent_table_autocreates`: deleting from the
absent table `z` of an empty store. -/
theorem delete_absent_table_autocreates_witness :
    (delete_stmt [] ⟨[⟨"z"⟩], none⟩ []).2 = .ok { rows := none, rowCount := some 0 } ∧
    storeGet? (delete_stmt [] ⟨[⟨"z"⟩], none⟩ []).1 "z" = some [] :=
  delete_absent_table_autocreates [] ⟨[⟨"z"⟩], none⟩ [] "z" rfl rfl

/-- C2 (code bug): in the two-table INNER JOIN over `joinStore` the
join-kind filter is computed into the dead `join_result` variable and
the unfiltered pairings are returned: both resulting composite rows lack
one side entirely, where the claim (and the filter the code discards)
would exclude them. -/
theorem inner_join_keeps_unmatched_rows :
    resolve_from joinStore joinFrom [] =
      .ok [[("history", JVal.obj [("client_id", Scalar.num 2)])],
           [("users", JVal.obj [("id", Scalar.num 1)])]] ∧
    jGet [("history", JVal.obj [("client_id", Scalar.num 2)])] (some "users") = none ∧
    jGet [("users", JVal.obj [("id", Scalar.num 1)])] (some "history") = none :=
  ⟨rfl, rfl, rfl⟩

/-- C5 (code bug): RETURNING with an explicit column list projects the
plain inserted rows through `#map_by_columns` with a null default table,
so every output row is the empty object instead of carrying the
requested columns (the repository's own tests expect `{id: 0}`). -/
theorem insert_returning_projects_empty :
    insert_stmt [] insertReturningId [] =
      ([("users2", [[("id", Scalar.num 0)]])],
       .ok { rows := some [[]], rowCount := some 1 }) ∧
    ([] : Row) ≠ [("id", Scalar.num 0)] :=
  ⟨rfl, by decide⟩

/-- C6 (code bug): ORDER BY over a named column evaluates the sort key
with `get_value(null, expr)`, which dereferences `null` for a column
reference; the whole select throws a `TypeError` instead of returning
the stably sorted rows. -/
theorem orderby_column_ref_throws :
    select_stmt fixtureStore selectOrderByName [] = .error SessErr.nullAccess :=
  rfl
